import Mathlib

/-!
# Stage controller of `symphony` (src/js/Stage.js)

A shallow embedding of the camera-follow and render-loop state of the `Stage`
class.  JavaScript numbers are modelled by exact rationals `ℚ` (no rounding, no
NaN, no infinities).  The fields of `this` that the camera logic reads or writes
are the fields of the structure `Stage`; the host facilities the class talks to
(`document.dispatchEvent`, `setTimeout`) are modelled by an explicit log of
dispatched signals and an explicit queue of pending timers.
-/

namespace Symphony

/-! ## Vectors (THREE.Vector2 / THREE.Vector3) -/

/-- Pair of coordinates, as `THREE.Vector2`. -/
structure Vector2 where
  x : ℚ
  y : ℚ
deriving DecidableEq, Repr

/-- Triple of coordinates, as `THREE.Vector3`. -/
structure Vector3 where
  x : ℚ
  y : ℚ
  z : ℚ
deriving DecidableEq, Repr

/-- Componentwise `this.x += (v.x - this.x) * alpha`, as `THREE.Vector2.lerp`. -/
def Vector2.lerp (a v : Vector2) (alpha : ℚ) : Vector2 :=
  { x := a.x + (v.x - a.x) * alpha
    y := a.y + (v.y - a.y) * alpha }

/-- Componentwise `this.x += (v.x - this.x) * alpha`, as `THREE.Vector3.lerp`. -/
def Vector3.lerp (a v : Vector3) (alpha : ℚ) : Vector3 :=
  { x := a.x + (v.x - a.x) * alpha
    y := a.y + (v.y - a.y) * alpha
    z := a.z + (v.z - a.z) * alpha }

/-- The object literals `{ x: ..., y: ... }` used for the drift limits. -/
structure DriftLimit where
  x : ℚ
  y : ℚ
deriving DecidableEq, Repr

/-! ## Host environment -/

/-- The three `Event` objects created in `addEvents`. -/
inductive Signal where
  | preUpdate
  | postUpdate
  | cameraMove
deriving DecidableEq, Repr

/-- The part of `window` read by `onDocumentMouseMove`. -/
structure Window where
  innerWidth : ℚ
  innerHeight : ℚ
deriving DecidableEq, Repr

/-- Result of `getBoundingClientRect()` on the canvas. -/
structure DOMRect where
  left : ℚ
  top : ℚ
  width : ℚ
  height : ℚ
deriving DecidableEq, Repr

/-- The part of a `mousemove` event read by `onDocumentMouseMove`. -/
structure MouseEvent where
  clientX : ℚ
  clientY : ℚ
deriving DecidableEq, Repr

/-! ## State of the controller -/

/-- Fields of a `Stage` instance used by the camera logic, together with the
log of signals passed to `document.dispatchEvent` (oldest first) and the queue
of callbacks registered with `setTimeout` that have not fired yet (each entry
is the delay in milliseconds; the only callback ever registered is the one in
`cameraFollowTarget`).  `camMoveBlocked` is never assigned by the constructor,
so it starts as `undefined`, modelled by `none`. -/
structure Stage where
  defaultCameraPos : Vector3
  cameraDriftLimitMax : DriftLimit
  cameraDriftLimitMin : DriftLimit
  cameraMoveStep : ℚ
  cameraLerpSpeed : ℚ
  cameraPosition : Vector3
  cameraPos : Vector3
  targetCameraPos : Vector3
  cameraLookAtPos : Vector3
  targetCameraLookAt : Vector3
  mousePos : Vector2
  targetMousePos : Vector2
  camMoveBlocked : Option Bool
  dispatched : List Signal
  timers : List ℕ
deriving DecidableEq, Repr

/-- JavaScript truthiness of the `camMoveBlocked` field (`undefined` and
`false` are falsy). -/
def truthy : Option Bool → Bool
  | none => false
  | some b => b

/-- State after `initCamera` and `addEvents` in the constructor: camera and
target at `(0, 0, 2500)`, drift limits `±300`, lerp speed `0.08`, both mouse
vectors at the origin, nothing dispatched, nothing scheduled. -/
def initial : Stage :=
  { defaultCameraPos := ⟨0, 0, 2500⟩
    cameraDriftLimitMax := ⟨300, 300⟩
    cameraDriftLimitMin := ⟨-300, -300⟩
    cameraMoveStep := 300
    cameraLerpSpeed := 0.08
    cameraPosition := ⟨0, 0, 2500⟩
    cameraPos := ⟨0, 0, 2500⟩
    targetCameraPos := ⟨0, 0, 2500⟩
    cameraLookAtPos := ⟨0, 0, 0⟩
    targetCameraLookAt := ⟨0, 0, 0⟩
    mousePos := ⟨0, 0⟩
    targetMousePos := ⟨0, 0⟩
    camMoveBlocked := none
    dispatched := []
    timers := [] }

/-! ## Operations -/

/-- Host call `document.dispatchEvent(e)`: the signal is appended to the log. -/
def dispatchEvent (s : Stage) (e : Signal) : Stage :=
  { s with dispatched := s.dispatched ++ [e] }

/-- Handler `Stage.onDocumentMouseMove`: set target mouse position.  The two
divisions are the JavaScript ones for a window of nonzero size; for a window of
size zero JavaScript stores an infinity or NaN, which `ℚ` does not have, so
statements that go through this handler assume a window of positive size. -/
def onDocumentMouseMove (s : Stage) (window : Window) (rect : DOMRect)
    (event : MouseEvent) : Stage :=
  let x := event.clientX - rect.left
  let y := event.clientY - rect.top
  { s with
    targetMousePos :=
      { x := x / window.innerWidth * 2 - 1
        y := 1 - y / window.innerHeight * 2 } }

/-- Method `Stage.updateMouse`: lerp current mouse position to target position. -/
def updateMouse (s : Stage) : Stage :=
  { s with
    mousePos :=
      s.mousePos.lerp ⟨s.targetMousePos.x, s.targetMousePos.y⟩ s.cameraLerpSpeed }

/-- Lines 204-218 of `cameraFollowTarget`: the value of `targetCameraPos` after
the two `-=` assignments and the four `if` statements, in source order
(max x, max y, min x, min y). -/
def driftTarget (s : Stage) : Vector3 :=
  let tx := s.targetCameraPos.x - s.mousePos.x
  let ty := s.targetCameraPos.y - s.mousePos.y
  let tx := if tx > s.cameraDriftLimitMax.x then s.cameraDriftLimitMax.x - 1 else tx
  let ty := if ty > s.cameraDriftLimitMax.y then s.cameraDriftLimitMax.y - 1 else ty
  let tx := if tx < s.cameraDriftLimitMin.x then s.cameraDriftLimitMin.x + 1 else tx
  let ty := if ty < s.cameraDriftLimitMin.y then s.cameraDriftLimitMin.y + 1 else ty
  { x := tx, y := ty, z := s.targetCameraPos.z }

/-- Line 221: `cameraPos` after `this.cameraPos.lerp(this.targetCameraPos, this.cameraLerpSpeed)`. -/
def lerpedCameraPos (s : Stage) : Vector3 :=
  s.cameraPos.lerp (driftTarget s) s.cameraLerpSpeed

/-- Line 224: `Math.ceil(this.camera.position.z / 1000) * 1000`, where
`camera.position` has just been copied from the lerped `cameraPos`. -/
def camPosNearest1000 (s : Stage) : ℚ :=
  ((⌈(lerpedCameraPos s).z / 1000⌉ : ℤ) : ℚ) * 1000

/-- Line 225: `Math.ceil(this.targetCameraPos.z / 1000) * 1000`. -/
def targetCamPosNearest1000 (s : Stage) : ℚ :=
  ((⌈(driftTarget s).z / 1000⌉ : ℤ) : ℚ) * 1000

/-- Line 227: the condition of the `if` guarding `setTimeout`. -/
def emits (s : Stage) : Bool :=
  decide (camPosNearest1000 s ≠ targetCamPosNearest1000 s) && !(truthy s.camMoveBlocked)

/-- Method `Stage.cameraFollowTarget`: move camera based on mouse position. -/
def cameraFollowTarget (s : Stage) : Stage :=
  let targetCameraPos := driftTarget s
  let cameraPos := lerpedCameraPos s
  let cameraLookAtPos := s.cameraLookAtPos.lerp s.targetCameraLookAt s.cameraLerpSpeed
  if emits s then
    { s with
      targetCameraPos := targetCameraPos
      cameraPos := cameraPos
      cameraPosition := cameraPos
      timers := s.timers ++ [100]
      camMoveBlocked := some true
      cameraLookAtPos := cameraLookAtPos }
  else
    { s with
      targetCameraPos := targetCameraPos
      cameraPos := cameraPos
      cameraPosition := cameraPos
      cameraLookAtPos := cameraLookAtPos }

/-- The callback handed to `setTimeout` in `cameraFollowTarget`. -/
def timerCallback (s : Stage) : Stage :=
  let s := { s with camMoveBlocked := some false }
  dispatchEvent s Signal.cameraMove

/-- The host fires the oldest pending timer, if there is one. -/
def fireTimer (s : Stage) : Option Stage :=
  match s.timers with
  | [] => none
  | _ :: rest => some (timerCallback { s with timers := rest })

/-- Method `Stage.render` delegates to the composer and leaves the modelled state as it is. -/
def render (s : Stage) : Stage := s

/-- Method `Stage.update`: called each animation frame. -/
def update (s : Stage) : Stage :=
  let s := dispatchEvent s Signal.preUpdate
  let s := updateMouse s
  let s := cameraFollowTarget s
  render s

/-! ## Interleavings of host callbacks -/

/-- What the single-threaded host can run next: a pointer-move handler, an
animation frame, or a pending timer. -/
inductive Action where
  | mouseMove (window : Window) (rect : DOMRect) (event : MouseEvent)
  | tick
  | timeout
deriving DecidableEq, Repr

/-- One host callback; `timeout` is enabled only while a timer is pending. -/
def step (s : Stage) : Action → Option Stage
  | Action.mouseMove window rect event => some (onDocumentMouseMove s window rect event)
  | Action.tick => some (update s)
  | Action.timeout => fireTimer s

/-- Run a sequence of host callbacks from `s`. -/
def run (s : Stage) : List Action → Option Stage
  | [] => some s
  | a :: rest => (step s a).bind fun s1 => run s1 rest

/-! ## Specification vocabulary -/

/-- Depth bucket of the specification: `ceil(z / 1000)`. -/
def bucket (z : ℚ) : ℤ := ⌈z / 1000⌉

/-- One-unit inward clamp of the specification: `max - 1` above `max`,
otherwise `min + 1` below `min`, otherwise the value itself. -/
def inwardClamp (lo hi v : ℚ) : ℚ :=
  if v > hi then hi - 1 else if v < lo then lo + 1 else v

/-- One of the two `if` statements on `targetCameraPos.x` assigns during a
call of `cameraFollowTarget` on `s`. -/
def clampAppliedX (s : Stage) : Bool :=
  let tx := s.targetCameraPos.x - s.mousePos.x
  decide (tx > s.cameraDriftLimitMax.x) ||
    decide ((if tx > s.cameraDriftLimitMax.x then s.cameraDriftLimitMax.x - 1 else tx)
      < s.cameraDriftLimitMin.x)

/-- Squared Euclidean distance between two mouse vectors. -/
def distSq (a b : Vector2) : ℚ := (a.x - b.x) ^ 2 + (a.y - b.y) ^ 2

/-- The drift limits leave room for the one-unit inward correction on both
axes, as the limits `±300` of `initCamera` do. -/
def LimitsSeparated (s : Stage) : Prop :=
  s.cameraDriftLimitMin.x + 1 ≤ s.cameraDriftLimitMax.x ∧
    s.cameraDriftLimitMin.y + 1 ≤ s.cameraDriftLimitMax.y

/-- Both `targetCameraPos.x` and `targetCameraPos.y` lie in the closed interval
between the drift limits of their axis. -/
def WithinDrift (s : Stage) : Prop :=
  (s.cameraDriftLimitMin.x ≤ s.targetCameraPos.x ∧
      s.targetCameraPos.x ≤ s.cameraDriftLimitMax.x) ∧
    (s.cameraDriftLimitMin.y ≤ s.targetCameraPos.y ∧
      s.targetCameraPos.y ≤ s.cameraDriftLimitMax.y)

/-- A pointer-move callback runs in a window of positive size (so the divisions
of `onDocumentMouseMove` are the ones JavaScript performs); the other callbacks
carry no window. -/
def positiveWindow : Action → Bool
  | Action.mouseMove window _ _ => decide (0 < window.innerWidth ∧ 0 < window.innerHeight)
  | Action.tick => true
  | Action.timeout => true

/-- Both components of a mouse vector lie in `[-1, 1]`. -/
def mouseInUnitBox (m : Vector2) : Bool :=
  decide ((-1 ≤ m.x ∧ m.x ≤ 1) ∧ (-1 ≤ m.y ∧ m.y ≤ 1))

/-- In every tick of the run of `acts` from `s`, the smoothed mouse value read
by `cameraFollowTarget` (the `mousePos` left by `updateMouse` in that tick) has
both components in `[-1, 1]`. -/
def smoothedMouseBounded (s : Stage) : List Action → Bool
  | [] => true
  | a :: rest =>
    (match a with
      | Action.tick => mouseInUnitBox (updateMouse (dispatchEvent s Signal.preUpdate)).mousePos
      | _ => true) &&
    (match step s a with
      | some s1 => smoothedMouseBounded s1 rest
      | none => true)

/-! ## Scenario states -/

/-- Start state for the clamp scenario: the target sits on the upper x limit
and the smoothed mouse value is held at `-1/2`. -/
def clampStart : Stage :=
  { initial with
    targetCameraPos := ⟨300, 0, 2500⟩
    mousePos := ⟨-1 / 2, 0⟩
    targetMousePos := ⟨-1 / 2, 0⟩ }

/-- The pointer position of `event` lies inside the bounding rectangle `rect`. -/
def insideRect (rect : DOMRect) (event : MouseEvent) : Prop :=
  (rect.left ≤ event.clientX ∧ event.clientX ≤ rect.left + rect.width) ∧
    (rect.top ≤ event.clientY ∧ event.clientY ≤ rect.top + rect.height)

/-- Centre of the viewport in client coordinates. -/
def viewportCentre (window : Window) : MouseEvent :=
  { clientX := window.innerWidth / 2, clientY := window.innerHeight / 2 }

/-- Debounce guard invariant: at most one timer is pending, and
`camMoveBlocked` is truthy exactly when one timer is pending. -/
def GuardInv (s : Stage) : Prop :=
  s.timers.length ≤ 1 ∧ (truthy s.camMoveBlocked = true ↔ s.timers.length = 1)

/-- Start state for the debounce scenario: the initial state with the target
depth moved to `z = 3500` (bucket 4) while the camera is at `z = 2500`
(bucket 3). -/
def debounceStart : Stage :=
  { initial with targetCameraPos := ⟨0, 0, 3500⟩ }

/-- Start state of the end-to-end scenario: the initial state after one pointer
move to `(600, 450)` in an 800 by 600 window filled by the canvas, which stores
`targetMousePos = (0.5, -0.5)`. -/
def scenarioStart : Stage :=
  onDocumentMouseMove initial ⟨800, 600⟩ ⟨0, 0, 800, 600⟩ ⟨600, 450⟩

/-- State of the end-to-end scenario after `n` ticks, as far as the claim needs
it: configuration of `initCamera`, target mouse held at `(0.5, -0.5)`, smoothed
mouse between the origin and the target, camera target drifted by at most
`n / 2` on each axis, depths at 2500, nothing scheduled. -/
def ScenarioInv (n : ℕ) (s : Stage) : Prop :=
  s.cameraLerpSpeed = 0.08 ∧
  s.cameraDriftLimitMax = ⟨300, 300⟩ ∧ s.cameraDriftLimitMin = ⟨-300, -300⟩ ∧
  s.targetMousePos = ⟨1 / 2, -1 / 2⟩ ∧
  (0 ≤ s.mousePos.x ∧ s.mousePos.x < 1 / 2) ∧
  (-1 / 2 < s.mousePos.y ∧ s.mousePos.y ≤ 0) ∧
  (-((n : ℚ) / 2) ≤ s.targetCameraPos.x ∧ s.targetCameraPos.x ≤ 0) ∧
  (0 ≤ s.targetCameraPos.y ∧ s.targetCameraPos.y ≤ (n : ℚ) / 2) ∧
  s.cameraPos.z = 2500 ∧ s.targetCameraPos.z = 2500 ∧
  s.timers = [] ∧ s.camMoveBlocked = none ∧
  s.dispatched.count Signal.cameraMove = 0

/-! ## Field lemmas -/

@[simp]
theorem cft_targetCameraPos (s : Stage) :
    (cameraFollowTarget s).targetCameraPos = driftTarget s := by
  unfold cameraFollowTarget; split <;> rfl

@[simp]
theorem cft_cameraPos (s : Stage) :
    (cameraFollowTarget s).cameraPos = lerpedCameraPos s := by
  unfold cameraFollowTarget; split <;> rfl

@[simp]
theorem cft_cameraPosition (s : Stage) :
    (cameraFollowTarget s).cameraPosition = lerpedCameraPos s := by
  unfold cameraFollowTarget; split <;> rfl

@[simp]
theorem cft_limitMax (s : Stage) :
    (cameraFollowTarget s).cameraDriftLimitMax = s.cameraDriftLimitMax := by
  unfold cameraFollowTarget; split <;> rfl

@[simp]
theorem cft_limitMin (s : Stage) :
    (cameraFollowTarget s).cameraDriftLimitMin = s.cameraDriftLimitMin := by
  unfold cameraFollowTarget; split <;> rfl

@[simp]
theorem cft_lerpSpeed (s : Stage) :
    (cameraFollowTarget s).cameraLerpSpeed = s.cameraLerpSpeed := by
  unfold cameraFollowTarget; split <;> rfl

@[simp]
theorem cft_mousePos (s : Stage) :
    (cameraFollowTarget s).mousePos = s.mousePos := by
  unfold cameraFollowTarget; split <;> rfl

@[simp]
theorem cft_targetMousePos (s : Stage) :
    (cameraFollowTarget s).targetMousePos = s.targetMousePos := by
  unfold cameraFollowTarget; split <;> rfl

@[simp]
theorem cft_dispatched (s : Stage) :
    (cameraFollowTarget s).dispatched = s.dispatched := by
  unfold cameraFollowTarget; split <;> rfl

theorem cft_timers (s : Stage) :
    (cameraFollowTarget s).timers = if emits s then s.timers ++ [100] else s.timers := by
  unfold cameraFollowTarget; split <;> rfl

theorem cft_camMoveBlocked (s : Stage) :
    (cameraFollowTarget s).camMoveBlocked
      = if emits s then some true else s.camMoveBlocked := by
  unfold cameraFollowTarget; split <;> rfl

@[simp]
theorem update_limitMax (s : Stage) :
    (update s).cameraDriftLimitMax = s.cameraDriftLimitMax := by
  simp [update, render, updateMouse, dispatchEvent]

@[simp]
theorem update_limitMin (s : Stage) :
    (update s).cameraDriftLimitMin = s.cameraDriftLimitMin := by
  simp [update, render, updateMouse, dispatchEvent]

@[simp]
theorem update_lerpSpeed (s : Stage) :
    (update s).cameraLerpSpeed = s.cameraLerpSpeed := by
  simp [update, render, updateMouse, dispatchEvent]

@[simp]
theorem update_targetMousePos (s : Stage) :
    (update s).targetMousePos = s.targetMousePos := by
  simp [update, render, updateMouse, dispatchEvent]

theorem update_dispatched (s : Stage) :
    (update s).dispatched = s.dispatched ++ [Signal.preUpdate] := by
  simp [update, render, updateMouse, dispatchEvent]

/-- The state on which `update` calls `cameraFollowTarget`. -/
theorem update_eq (s : Stage) :
    update s = cameraFollowTarget
      (updateMouse (dispatchEvent s Signal.preUpdate)) := rfl

/-- A host callback never reassigns the drift limits or the lerp speed. -/
theorem step_config {s s1 : Stage} {a : Action} (h : step s a = some s1) :
    s1.cameraDriftLimitMax = s.cameraDriftLimitMax ∧
      s1.cameraDriftLimitMin = s.cameraDriftLimitMin ∧
      s1.cameraLerpSpeed = s.cameraLerpSpeed := by
  cases a with
  | mouseMove w r e =>
    simp only [step, Option.some.injEq] at h
    subst h
    simp [onDocumentMouseMove]
  | tick =>
    simp only [step, Option.some.injEq] at h
    subst h
    simp
  | timeout =>
    simp only [step, fireTimer] at h
    split at h
    · simp at h
    · simp only [Option.some.injEq] at h
      subst h
      simp [timerCallback, dispatchEvent]

/-! ## Drift window -/

theorem driftTarget_x_le (s : Stage)
    (h : s.cameraDriftLimitMin.x + 1 ≤ s.cameraDriftLimitMax.x) :
    s.cameraDriftLimitMin.x ≤ (driftTarget s).x ∧
      (driftTarget s).x ≤ s.cameraDriftLimitMax.x := by
  simp only [driftTarget]
  split_ifs <;> constructor <;> linarith

theorem driftTarget_y_le (s : Stage)
    (h : s.cameraDriftLimitMin.y + 1 ≤ s.cameraDriftLimitMax.y) :
    s.cameraDriftLimitMin.y ≤ (driftTarget s).y ∧
      (driftTarget s).y ≤ s.cameraDriftLimitMax.y := by
  simp only [driftTarget]
  split_ifs <;> constructor <;> linarith

theorem driftTarget_x_eq (s : Stage)
    (h : s.cameraDriftLimitMin.x + 1 ≤ s.cameraDriftLimitMax.x) :
    (driftTarget s).x = inwardClamp s.cameraDriftLimitMin.x s.cameraDriftLimitMax.x
      (s.targetCameraPos.x - s.mousePos.x) := by
  simp only [driftTarget, inwardClamp]
  split_ifs <;> first | rfl | linarith

theorem driftTarget_y_eq (s : Stage)
    (h : s.cameraDriftLimitMin.y + 1 ≤ s.cameraDriftLimitMax.y) :
    (driftTarget s).y = inwardClamp s.cameraDriftLimitMin.y s.cameraDriftLimitMax.y
      (s.targetCameraPos.y - s.mousePos.y) := by
  simp only [driftTarget, inwardClamp]
  split_ifs <;> first | rfl | linarith

theorem withinDrift_cft (s : Stage) (h : LimitsSeparated s) :
    WithinDrift (cameraFollowTarget s) := by
  unfold WithinDrift
  simp only [cft_targetCameraPos, cft_limitMax, cft_limitMin]
  exact ⟨driftTarget_x_le s h.1, driftTarget_y_le s h.2⟩

theorem withinDrift_update (s : Stage) (h : LimitsSeparated s) :
    WithinDrift (update s) := by
  rw [update_eq]
  exact withinDrift_cft _ h

theorem step_separated {s s1 : Stage} {a : Action} (h : step s a = some s1)
    (hs : LimitsSeparated s) : LimitsSeparated s1 := by
  obtain ⟨h1, h2, _⟩ := step_config h
  unfold LimitsSeparated at *
  rw [h1, h2]; exact hs

theorem step_withinDrift {s s1 : Stage} {a : Action} (h : step s a = some s1)
    (hs : LimitsSeparated s) (hw : WithinDrift s) : WithinDrift s1 := by
  cases a with
  | mouseMove w r e =>
    simp only [step, Option.some.injEq] at h
    subst h
    exact hw
  | tick =>
    simp only [step, Option.some.injEq] at h
    subst h
    exact withinDrift_update s hs
  | timeout =>
    simp only [step, fireTimer] at h
    split at h
    · simp at h
    · simp only [Option.some.injEq] at h
      subst h
      exact hw

theorem run_withinDrift (acts : List Action) :
    ∀ (s s1 : Stage), run s acts = some s1 → LimitsSeparated s → WithinDrift s →
      WithinDrift s1 ∧ LimitsSeparated s1 ∧
        s1.cameraDriftLimitMax = s.cameraDriftLimitMax ∧
        s1.cameraDriftLimitMin = s.cameraDriftLimitMin := by
  induction acts with
  | nil =>
    intro s s1 h hs hw
    simp only [run, Option.some.injEq] at h
    subst h
    exact ⟨hw, hs, rfl, rfl⟩
  | cons a rest ih =>
    intro s s1 h hs hw
    simp only [run] at h
    cases hstep : step s a with
    | none => simp [hstep] at h
    | some s2 =>
      simp only [hstep, Option.some_bind] at h
      obtain ⟨c1, c2, _⟩ := step_config hstep
      obtain ⟨r1, r2, r3, r4⟩ := ih s2 s1 h (step_separated hstep hs) (step_withinDrift hstep hs hw)
      exact ⟨r1, r2, r3.trans c1, r4.trans c2⟩

/-! ## Claims on the drift window -/

/-- C1, as stated, fails: from `clampStart` the smoothed mouse value read by
`cameraFollowTarget` is `-1/2` (inside `[-1, 1]`) in both ticks, the first tick
applies the upper clamp and leaves `targetCameraPos.x = 299`, and the second
tick ends with `targetCameraPos.x = 299.5`, which is above
`cameraDriftLimitMax.x - 1 = 299`. -/
theorem clamp_correctness_counterexample :
    (updateMouse (dispatchEvent clampStart Signal.preUpdate)).mousePos.x = -1 / 2 ∧
    (updateMouse (dispatchEvent (update clampStart) Signal.preUpdate)).mousePos.x = -1 / 2 ∧
    clampAppliedX (updateMouse (dispatchEvent clampStart Signal.preUpdate)) = true ∧
    (update clampStart).targetCameraPos.x = 299 ∧
    (update (update clampStart)).targetCameraPos.x = 599 / 2 ∧
    (update (update clampStart)).cameraDriftLimitMax.x - 1 = 299 ∧
    ¬ ((update (update clampStart)).targetCameraPos.x
        ≤ (update (update clampStart)).cameraDriftLimitMax.x - 1) := by
  have h1 : (update clampStart).targetCameraPos.x = 299 := by
    simp only [update_eq, cft_targetCameraPos]
    norm_num [driftTarget, updateMouse, dispatchEvent, clampStart, initial, Vector2.lerp]
  have hm : (update clampStart).mousePos = ⟨-1 / 2, 0⟩ := by
    simp only [update_eq, cft_mousePos]
    norm_num [updateMouse, dispatchEvent, clampStart, initial, Vector2.lerp]
  have h2 : (update (update clampStart)).targetCameraPos.x = 599 / 2 := by
    rw [update_eq (update clampStart)]
    simp only [cft_targetCameraPos]
    norm_num [driftTarget, updateMouse, dispatchEvent, Vector2.lerp, hm, h1]
    norm_num [clampStart, initial]
  have hl : (update (update clampStart)).cameraDriftLimitMax.x - 1 = 299 := by
    norm_num [clampStart, initial]
  refine ⟨?_, ?_, ?_, h1, h2, hl, ?_⟩
  · norm_num [updateMouse, dispatchEvent, clampStart, initial, Vector2.lerp]
  · norm_num [updateMouse, dispatchEvent, Vector2.lerp, hm]
    norm_num [clampStart, initial]
  · norm_num [clampAppliedX, updateMouse, dispatchEvent, clampStart, initial, Vector2.lerp]
  · rw [h2, hl]
    norm_num

/-- C1, amended: with drift limits at least one unit apart and a smoothed mouse
value in `[-1, 1]`, a call of `cameraFollowTarget` in which a clamp is applied
to `targetCameraPos.x` leaves it at `cameraDriftLimitMax.x - 1` or at
`cameraDriftLimitMin.x + 1`; and in every state reached afterwards by a
sequence of host callbacks in which every pointer move happens in a window of
positive size and every tick reads a smoothed mouse value in `[-1, 1]`,
`targetCameraPos.x` lies in the closed interval between
`cameraDriftLimitMin.x` and `cameraDriftLimitMax.x`. -/
theorem clamp_keeps_x_within_limits (s : Stage) (hsep : LimitsSeparated s)
    (_hmouse : mouseInUnitBox s.mousePos = true) :
    (clampAppliedX s = true →
      (cameraFollowTarget s).targetCameraPos.x = s.cameraDriftLimitMax.x - 1 ∨
      (cameraFollowTarget s).targetCameraPos.x = s.cameraDriftLimitMin.x + 1) ∧
    ∀ (acts : List Action) (s1 : Stage),
      (∀ a ∈ acts, positiveWindow a = true) →
      smoothedMouseBounded (cameraFollowTarget s) acts = true →
      run (cameraFollowTarget s) acts = some s1 →
      s.cameraDriftLimitMin.x ≤ s1.targetCameraPos.x ∧
      s1.targetCameraPos.x ≤ s.cameraDriftLimitMax.x := by
  constructor
  · intro hc
    simp only [clampAppliedX, Bool.or_eq_true, decide_eq_true_eq] at hc
    simp only [cft_targetCameraPos, driftTarget]
    split_ifs at hc ⊢ <;>
      first
        | (left; rfl)
        | (right; rfl)
        | (exfalso; rcases hc with hc | hc <;> linarith)
  · intro acts s1 _ _ hrun
    have hsep1 : LimitsSeparated (cameraFollowTarget s) := by
      unfold LimitsSeparated
      simpa using hsep
    obtain ⟨hw, _, hmax, hmin⟩ :=
      run_withinDrift acts _ s1 hrun hsep1 (withinDrift_cft s hsep)
    rw [cft_limitMax] at hmax
    rw [cft_limitMin] at hmin
    rw [← hmax, ← hmin]
    exact hw.1

/-- Witness for C1 amended: at `updateMouse clampStart` (limits `±300`, smoothed
mouse `(-1/2, 0)`) the clamp is applied; after that call, a pointer move in an
800 by 600 window and one more tick (smoothed mouse `(-0.42, -0.04)`),
`targetCameraPos.x` lies in `[-300, 300]`. -/
theorem clamp_keeps_x_within_limits_witness :
    LimitsSeparated (updateMouse clampStart) ∧
    mouseInUnitBox (updateMouse clampStart).mousePos = true ∧
    clampAppliedX (updateMouse clampStart) = true ∧
    ((cameraFollowTarget (updateMouse clampStart)).targetCameraPos.x = 300 - 1 ∨
      (cameraFollowTarget (updateMouse clampStart)).targetCameraPos.x = -300 + 1) ∧
    (∀ a ∈ [Action.mouseMove ⟨800, 600⟩ ⟨0, 0, 800, 600⟩ ⟨600, 450⟩, Action.tick],
      positiveWindow a = true) ∧
    smoothedMouseBounded (cameraFollowTarget (updateMouse clampStart))
      [Action.mouseMove ⟨800, 600⟩ ⟨0, 0, 800, 600⟩ ⟨600, 450⟩, Action.tick] = true ∧
    (-300 ≤ (update (onDocumentMouseMove (cameraFollowTarget (updateMouse clampStart))
        ⟨800, 600⟩ ⟨0, 0, 800, 600⟩ ⟨600, 450⟩)).targetCameraPos.x ∧
      (update (onDocumentMouseMove (cameraFollowTarget (updateMouse clampStart))
        ⟨800, 600⟩ ⟨0, 0, 800, 600⟩ ⟨600, 450⟩)).targetCameraPos.x ≤ 300) := by
  have hsep : LimitsSeparated (updateMouse clampStart) := by
    norm_num [LimitsSeparated, updateMouse, clampStart, initial]
  have hmouse : mouseInUnitBox (updateMouse clampStart).mousePos = true := by
    norm_num [mouseInUnitBox, updateMouse, clampStart, initial, Vector2.lerp]
  have hc : clampAppliedX (updateMouse clampStart) = true := by
    norm_num [clampAppliedX, updateMouse, clampStart, initial, Vector2.lerp]
  have hwin : ∀ a ∈ [Action.mouseMove ⟨800, 600⟩ ⟨0, 0, 800, 600⟩ ⟨600, 450⟩, Action.tick],
      positiveWindow a = true := by
    intro a ha
    simp only [List.mem_cons, List.mem_singleton, List.not_mem_nil, or_false] at ha
    rcases ha with rfl | rfl
    · norm_num [positiveWindow]
    · rfl
  have hbound : smoothedMouseBounded (cameraFollowTarget (updateMouse clampStart))
      [Action.mouseMove ⟨800, 600⟩ ⟨0, 0, 800, 600⟩ ⟨600, 450⟩, Action.tick] = true := by
    simp only [smoothedMouseBounded, step, Bool.true_and, Bool.and_true]
    norm_num [mouseInUnitBox, updateMouse, dispatchEvent, onDocumentMouseMove, Vector2.lerp,
      clampStart, initial]
  have h := clamp_keeps_x_within_limits (updateMouse clampStart) hsep hmouse
  have h1 := h.1 hc
  have h2 := h.2 [Action.mouseMove ⟨800, 600⟩ ⟨0, 0, 800, 600⟩ ⟨600, 450⟩, Action.tick] _
    hwin hbound rfl
  have e1 : (updateMouse clampStart).cameraDriftLimitMax.x = 300 := rfl
  have e2 : (updateMouse clampStart).cameraDriftLimitMin.x = -300 := rfl
  rw [e1, e2] at h1 h2
  exact ⟨hsep, hmouse, hc, h1, hwin, hbound, h2⟩

/-- C2: with drift limits at least one unit apart (as the limits `±300` set by
`initCamera` are), after one call of `cameraFollowTarget` from any prior state
both `targetCameraPos.x` and `targetCameraPos.y` lie in the closed interval
between the drift limits of their axis, and the same holds in every state
reached after a first tick by host callbacks in which every pointer move
happens in a window of positive size. -/
theorem drift_bound_invariant (s : Stage) (hsep : LimitsSeparated s) :
    WithinDrift (cameraFollowTarget s) ∧
    ∀ (acts : List Action) (s1 : Stage),
      (∀ a ∈ acts, positiveWindow a = true) →
      run (update s) acts = some s1 →
      WithinDrift s1 := by
  refine ⟨withinDrift_cft s hsep, ?_⟩
  intro acts s1 _ hrun
  have hsep1 : LimitsSeparated (update s) := by
    unfold LimitsSeparated
    simpa using hsep
  exact (run_withinDrift acts _ s1 hrun hsep1 (withinDrift_update s hsep)).1

/-- Witness for C2: the initial state with the target pushed far outside the
window on both axes; one call brings it back inside `[-300, 300]`, and it is
still inside after a first tick followed by a pointer move in an 800 by 600
window and another tick. -/
theorem drift_bound_invariant_witness :
    LimitsSeparated { initial with targetCameraPos := ⟨1000, -1000, 2500⟩ } ∧
    WithinDrift (cameraFollowTarget { initial with targetCameraPos := ⟨1000, -1000, 2500⟩ }) ∧
    (cameraFollowTarget
      { initial with targetCameraPos := ⟨1000, -1000, 2500⟩ }).cameraDriftLimitMax = ⟨300, 300⟩ ∧
    (cameraFollowTarget
      { initial with targetCameraPos := ⟨1000, -1000, 2500⟩ }).cameraDriftLimitMin
        = ⟨-300, -300⟩ ∧
    (∀ a ∈ [Action.mouseMove ⟨800, 600⟩ ⟨0, 0, 800, 600⟩ ⟨600, 450⟩, Action.tick],
      positiveWindow a = true) ∧
    WithinDrift (update (onDocumentMouseMove
      (update { initial with targetCameraPos := ⟨1000, -1000, 2500⟩ })
      ⟨800, 600⟩ ⟨0, 0, 800, 600⟩ ⟨600, 450⟩)) := by
  have hsep : LimitsSeparated { initial with targetCameraPos := ⟨1000, -1000, 2500⟩ } := by
    norm_num [LimitsSeparated, initial]
  have hwin : ∀ a ∈ [Action.mouseMove ⟨800, 600⟩ ⟨0, 0, 800, 600⟩ ⟨600, 450⟩, Action.tick],
      positiveWindow a = true := by
    intro a ha
    simp only [List.mem_cons, List.mem_singleton, List.not_mem_nil, or_false] at ha
    rcases ha with rfl | rfl
    · norm_num [positiveWindow]
    · rfl
  have h := drift_bound_invariant _ hsep
  exact ⟨hsep, h.1, by simp [initial], by simp [initial], hwin,
    h.2 [Action.mouseMove ⟨800, 600⟩ ⟨0, 0, 800, 600⟩ ⟨600, 450⟩, Action.tick] _ hwin rfl⟩

/-- One lerp step with factor `0.08` lands between the old value and the target. -/
theorem lerp_between (a t : ℚ) :
    min a t ≤ a + (t - a) * 0.08 ∧ a + (t - a) * 0.08 ≤ max a t := by
  rcases le_total a t with h | h
  · rw [min_eq_left h, max_eq_right h]
    constructor <;> norm_num <;> linarith
  · rw [min_eq_right h, max_eq_left h]
    constructor <;> norm_num <;> linarith

/-- C7: with drift limits at least one unit apart and lerp speed `0.08`, one call
of `cameraFollowTarget` sets `targetCameraPos` on x and y to the one-unit inward
clamp `inwardClamp` of `targetCameraPos - mousePos`, leaves `targetCameraPos.z`
unchanged, and sets every component of `cameraPos` to
`cameraPos + 0.08 * (targetCameraPos' - cameraPos)`, which lies between the old
component and the new (already clamped) target component. -/
theorem tick_position_update (s : Stage) (hsep : LimitsSeparated s)
    (hspeed : s.cameraLerpSpeed = 0.08) :
    ((cameraFollowTarget s).targetCameraPos.x
        = inwardClamp s.cameraDriftLimitMin.x s.cameraDriftLimitMax.x
            (s.targetCameraPos.x - s.mousePos.x) ∧
      (cameraFollowTarget s).targetCameraPos.y
        = inwardClamp s.cameraDriftLimitMin.y s.cameraDriftLimitMax.y
            (s.targetCameraPos.y - s.mousePos.y) ∧
      (cameraFollowTarget s).targetCameraPos.z = s.targetCameraPos.z) ∧
    ((cameraFollowTarget s).cameraPos.x
        = s.cameraPos.x + 0.08 * ((cameraFollowTarget s).targetCameraPos.x - s.cameraPos.x) ∧
      (cameraFollowTarget s).cameraPos.y
        = s.cameraPos.y + 0.08 * ((cameraFollowTarget s).targetCameraPos.y - s.cameraPos.y) ∧
      (cameraFollowTarget s).cameraPos.z
        = s.cameraPos.z + 0.08 * ((cameraFollowTarget s).targetCameraPos.z - s.cameraPos.z)) ∧
    ((min s.cameraPos.x (cameraFollowTarget s).targetCameraPos.x
          ≤ (cameraFollowTarget s).cameraPos.x ∧
        (cameraFollowTarget s).cameraPos.x
          ≤ max s.cameraPos.x (cameraFollowTarget s).targetCameraPos.x) ∧
      (min s.cameraPos.y (cameraFollowTarget s).targetCameraPos.y
          ≤ (cameraFollowTarget s).cameraPos.y ∧
        (cameraFollowTarget s).cameraPos.y
          ≤ max s.cameraPos.y (cameraFollowTarget s).targetCameraPos.y) ∧
      (min s.cameraPos.z (cameraFollowTarget s).targetCameraPos.z
          ≤ (cameraFollowTarget s).cameraPos.z ∧
        (cameraFollowTarget s).cameraPos.z
          ≤ max s.cameraPos.z (cameraFollowTarget s).targetCameraPos.z)) := by
  simp only [cft_targetCameraPos, cft_cameraPos, lerpedCameraPos, Vector3.lerp, hspeed]
  refine ⟨⟨driftTarget_x_eq s hsep.1, driftTarget_y_eq s hsep.2, rfl⟩,
    ⟨by ring, by ring, by ring⟩, lerp_between _ _, lerp_between _ _, lerp_between _ _⟩

/-- Witness for C7: the clamp scenario state, whose limits are `±300` and whose
lerp speed is `0.08`; the nudged x value `300.5` is clamped to `299`. -/
theorem tick_position_update_witness :
    LimitsSeparated (updateMouse clampStart) ∧
    (updateMouse clampStart).cameraLerpSpeed = 0.08 ∧
    (cameraFollowTarget (updateMouse clampStart)).targetCameraPos.x
      = inwardClamp (-300) 300 (300 - (-1 / 2)) ∧
    (cameraFollowTarget (updateMouse clampStart)).cameraPos.x
      = 0 + 0.08 * ((cameraFollowTarget (updateMouse clampStart)).targetCameraPos.x - 0) := by
  have hsep : LimitsSeparated (updateMouse clampStart) := by
    norm_num [LimitsSeparated, updateMouse, clampStart, initial, dispatchEvent]
  have hspeed : (updateMouse clampStart).cameraLerpSpeed = 0.08 := rfl
  have h := tick_position_update (updateMouse clampStart) hsep hspeed
  have e : (updateMouse clampStart).targetCameraPos.x - (updateMouse clampStart).mousePos.x
      = 300 - (-1 / 2) := by
    norm_num [updateMouse, clampStart, initial, Vector2.lerp, dispatchEvent]
  refine ⟨hsep, hspeed, ?_, ?_⟩
  · have h1 := h.1.1
    rw [e] at h1
    exact h1
  · exact h.2.1.1

/-! ## Depth-threshold emitter -/

/-- The comparison of line 227 on the values rounded up to a multiple of 1000
is the comparison of the depth buckets of the lerped camera z and the target z. -/
theorem nearest1000_ne_iff (s : Stage) :
    camPosNearest1000 s ≠ targetCamPosNearest1000 s ↔
      bucket (lerpedCameraPos s).z ≠ bucket s.targetCameraPos.z := by
  unfold camPosNearest1000 targetCamPosNearest1000 bucket
  have hz : (driftTarget s).z = s.targetCameraPos.z := rfl
  rw [hz]
  constructor
  · intro h e
    exact h (by rw [e])
  · intro h e
    apply h
    have h1000 : (1000 : ℚ) ≠ 0 := by norm_num
    exact Int.cast_injective (mul_right_cancel₀ h1000 e)

theorem emits_iff (s : Stage) :
    emits s = true ↔
      bucket (lerpedCameraPos s).z ≠ bucket s.targetCameraPos.z ∧
        truthy s.camMoveBlocked = false := by
  unfold emits
  rw [Bool.and_eq_true, decide_eq_true_iff, nearest1000_ne_iff]
  simp

/-- C4: a call of `cameraFollowTarget` appends a timer and sets `camMoveBlocked`
exactly when the depth bucket `ceil(z / 1000)` of `cameraPos.z` after this
call's position lerp differs from the bucket of `targetCameraPos.z` and
`camMoveBlocked` was not set; otherwise the timer queue and the flag are left
as they were.  The code's comparison of `ceil(z / 1000) * 1000` values is
equivalent to the comparison of the buckets, and the buckets of 2999, 3000 and
3001 are 3, 3 and 4. -/
theorem emission_condition (s : Stage) :
    (((cameraFollowTarget s).timers = s.timers ++ [100] ∧
        (cameraFollowTarget s).camMoveBlocked = some true) ↔
      (bucket (cameraFollowTarget s).cameraPos.z ≠ bucket s.targetCameraPos.z ∧
        truthy s.camMoveBlocked = false)) ∧
    (¬ (bucket (cameraFollowTarget s).cameraPos.z ≠ bucket s.targetCameraPos.z ∧
          truthy s.camMoveBlocked = false) →
      (cameraFollowTarget s).timers = s.timers ∧
        (cameraFollowTarget s).camMoveBlocked = s.camMoveBlocked) ∧
    (camPosNearest1000 s ≠ targetCamPosNearest1000 s ↔
      bucket (cameraFollowTarget s).cameraPos.z
        ≠ bucket (cameraFollowTarget s).targetCameraPos.z) ∧
    (bucket 2999 = 3 ∧ bucket 3000 = 3 ∧ bucket 3001 = 4) := by
  have hz : (driftTarget s).z = s.targetCameraPos.z := rfl
  simp only [cft_cameraPos, cft_targetCameraPos, hz, ← emits_iff, cft_timers,
    cft_camMoveBlocked]
  refine ⟨?_, ?_, ?_, ?_⟩
  · cases he : emits s <;> simp
  · intro h
    simp [h]
  · exact nearest1000_ne_iff s
  · unfold bucket
    refine ⟨?_, ?_, ?_⟩ <;> rw [Int.ceil_eq_iff] <;> norm_num

/-! ## Update signals -/

/-- C6, evaluated on the code: one call of `update` dispatches `preUpdate` and
nothing else, so the log grows by `[preUpdate]` only and `postUpdate` is never
dispatched by a tick. -/
theorem update_dispatches_preUpdate_only (s : Stage) :
    (update s).dispatched = s.dispatched ++ [Signal.preUpdate] ∧
    (update s).dispatched ≠ s.dispatched ++ [Signal.preUpdate, Signal.postUpdate] ∧
    (update s).dispatched.count Signal.postUpdate = s.dispatched.count Signal.postUpdate := by
  rw [update_dispatched]
  refine ⟨rfl, ?_, ?_⟩
  · simp
  · simp

/-! ## Mouse smoothing -/

@[simp]
theorem update_mousePos (s : Stage) :
    (update s).mousePos = (updateMouse s).mousePos := by
  simp [update, render, updateMouse, dispatchEvent]

theorem iterate_update_config (s : Stage) (n : ℕ) :
    (update^[n] s).cameraLerpSpeed = s.cameraLerpSpeed ∧
      (update^[n] s).targetMousePos = s.targetMousePos ∧
      (update^[n] s).cameraDriftLimitMax = s.cameraDriftLimitMax ∧
      (update^[n] s).cameraDriftLimitMin = s.cameraDriftLimitMin := by
  induction n with
  | zero => simp
  | succ k ih =>
    rw [Function.iterate_succ_apply']
    simpa using ih

/-- One call of `updateMouse` with lerp speed `0.08` scales the offset from the
target by `0.92` on each axis. -/
theorem updateMouse_offset (s : Stage) (hspeed : s.cameraLerpSpeed = 0.08) :
    (updateMouse s).mousePos.x - s.targetMousePos.x
        = 0.92 * (s.mousePos.x - s.targetMousePos.x) ∧
      (updateMouse s).mousePos.y - s.targetMousePos.y
        = 0.92 * (s.mousePos.y - s.targetMousePos.y) := by
  simp only [updateMouse, Vector2.lerp, hspeed, dispatchEvent]
  constructor <;> ring

/-- Closed form of the offset after `n` ticks with a constant target. -/
theorem iterate_update_offset (s : Stage) (hspeed : s.cameraLerpSpeed = 0.08) (n : ℕ) :
    (update^[n] s).mousePos.x - s.targetMousePos.x
        = 0.92 ^ n * (s.mousePos.x - s.targetMousePos.x) ∧
      (update^[n] s).mousePos.y - s.targetMousePos.y
        = 0.92 ^ n * (s.mousePos.y - s.targetMousePos.y) := by
  induction n with
  | zero => simp
  | succ k ih =>
    obtain ⟨hsp, htm, _, _⟩ := iterate_update_config s k
    have h := updateMouse_offset (update^[k] s) (hsp.trans hspeed)
    rw [htm] at h
    rw [Function.iterate_succ_apply', update_mousePos, h.1, h.2, ih.1, ih.2]
    constructor <;> ring

theorem iterate_update_distSq (s : Stage) (hspeed : s.cameraLerpSpeed = 0.08) (n : ℕ) :
    distSq (update^[n] s).mousePos s.targetMousePos
      = (0.92 ^ n) ^ 2 * distSq s.mousePos s.targetMousePos := by
  obtain ⟨hx, hy⟩ := iterate_update_offset s hspeed n
  unfold distSq
  rw [hx, hy]
  ring

theorem distSq_pos_of_ne {a b : Vector2} (h : a ≠ b) : 0 < distSq a b := by
  unfold distSq
  have hne : a.x - b.x ≠ 0 ∨ a.y - b.y ≠ 0 := by
    by_contra hc
    push_neg at hc
    apply h
    cases a
    cases b
    simp only [Vector2.mk.injEq]
    exact ⟨by linarith [hc.1], by linarith [hc.2]⟩
  rcases hne with hx | hy
  · have := pow_pos (abs_pos.mpr hx) 2
    rw [sq_abs] at this
    nlinarith [sq_nonneg (a.y - b.y)]
  · have := pow_pos (abs_pos.mpr hy) 2
    rw [sq_abs] at this
    nlinarith [sq_nonneg (a.x - b.x)]

theorem distSq_nonneg (a b : Vector2) : 0 ≤ distSq a b := by
  unfold distSq
  positivity

/-- C5: in exact arithmetic with lerp speed `0.08` and a constant
`targetMousePos`, each call of `updateMouse` multiplies each component of
`mousePos - targetMousePos` by exactly `0.92` and leaves the target as it is;
each new component lies between the old one and the target (no overshoot);
whenever `mousePos` differs from the target, the Euclidean distance to the
target strictly decreases at every tick and is never zero after finitely many
ticks; and from squared distance 1 (distance 1) the distance after 110 ticks is
below `1/1000`. -/
theorem smoothing_convergence (s : Stage) (hspeed : s.cameraLerpSpeed = 0.08) :
    ((updateMouse s).targetMousePos = s.targetMousePos ∧
      (updateMouse s).mousePos.x - s.targetMousePos.x
        = 0.92 * (s.mousePos.x - s.targetMousePos.x) ∧
      (updateMouse s).mousePos.y - s.targetMousePos.y
        = 0.92 * (s.mousePos.y - s.targetMousePos.y)) ∧
    ((min s.mousePos.x s.targetMousePos.x ≤ (updateMouse s).mousePos.x ∧
        (updateMouse s).mousePos.x ≤ max s.mousePos.x s.targetMousePos.x) ∧
      (min s.mousePos.y s.targetMousePos.y ≤ (updateMouse s).mousePos.y ∧
        (updateMouse s).mousePos.y ≤ max s.mousePos.y s.targetMousePos.y)) ∧
    (s.mousePos ≠ s.targetMousePos → ∀ n : ℕ,
      Real.sqrt ((distSq (update^[n + 1] s).mousePos s.targetMousePos : ℚ) : ℝ)
          < Real.sqrt ((distSq (update^[n] s).mousePos s.targetMousePos : ℚ) : ℝ) ∧
        (update^[n] s).mousePos ≠ s.targetMousePos) ∧
    (distSq s.mousePos s.targetMousePos = 1 →
      Real.sqrt ((distSq (update^[110] s).mousePos s.targetMousePos : ℚ) : ℝ) < 1 / 1000) := by
  refine ⟨⟨rfl, updateMouse_offset s hspeed⟩, ?_, ?_, ?_⟩
  · simp only [updateMouse, Vector2.lerp, hspeed, dispatchEvent]
    exact ⟨lerp_between _ _, lerp_between _ _⟩
  · intro hne n
    have hpos := distSq_pos_of_ne hne
    have hn := iterate_update_distSq s hspeed n
    have hn1 := iterate_update_distSq s hspeed (n + 1)
    have hp : (0 : ℚ) < (0.92 ^ n) ^ 2 := by positivity
    constructor
    · apply Real.sqrt_lt_sqrt
      · exact_mod_cast distSq_nonneg _ _
      · have hlt : distSq (update^[n + 1] s).mousePos s.targetMousePos
            < distSq (update^[n] s).mousePos s.targetMousePos := by
          have h2 : ((0.92 : ℚ) ^ (n + 1)) ^ 2 = (0.92 ^ n) ^ 2 * 0.8464 := by
            rw [pow_succ]
            ring
          rw [hn1, hn, h2]
          have hq : 0 < (0.92 ^ n) ^ 2 * distSq s.mousePos s.targetMousePos :=
            mul_pos hp hpos
          nlinarith
        exact_mod_cast hlt
    · intro heq
      have hz : distSq (update^[n] s).mousePos s.targetMousePos = 0 := by
        rw [heq]
        simp [distSq]
      rw [hn] at hz
      have := mul_pos hp hpos
      linarith
  · intro h1
    have h := iterate_update_distSq s hspeed 110
    rw [h1] at h
    rw [Real.sqrt_lt' (by norm_num)]
    have hq : distSq (update^[110] s).mousePos s.targetMousePos < (1 / 1000) ^ 2 := by
      rw [h]
      norm_num
    have hr : ((distSq (update^[110] s).mousePos s.targetMousePos : ℚ) : ℝ)
        < (((1 / 1000) ^ 2 : ℚ) : ℝ) := Rat.cast_lt.mpr hq
    push_cast at hr
    exact hr

/-- Witness for C5: the initial state with the mouse at `(1, 0)` and the target
at the origin (distance 1, lerp speed `0.08`). -/
theorem smoothing_convergence_witness :
    ({ initial with mousePos := ⟨1, 0⟩ } : Stage).cameraLerpSpeed = 0.08 ∧
    ({ initial with mousePos := ⟨1, 0⟩ } : Stage).mousePos
      ≠ ({ initial with mousePos := ⟨1, 0⟩ } : Stage).targetMousePos ∧
    distSq ({ initial with mousePos := ⟨1, 0⟩ } : Stage).mousePos
      ({ initial with mousePos := ⟨1, 0⟩ } : Stage).targetMousePos = 1 ∧
    (updateMouse { initial with mousePos := ⟨1, 0⟩ }).mousePos.x - 0 = 0.92 * (1 - 0) ∧
    Real.sqrt ((distSq (update^[110] { initial with mousePos := ⟨1, 0⟩ }).mousePos
      ⟨0, 0⟩ : ℚ) : ℝ) < 1 / 1000 := by
  have hd : distSq ({ initial with mousePos := ⟨1, 0⟩ } : Stage).mousePos
      ({ initial with mousePos := ⟨1, 0⟩ } : Stage).targetMousePos = 1 := by
    norm_num [distSq, initial]
  have h := smoothing_convergence { initial with mousePos := ⟨1, 0⟩ } rfl
  refine ⟨rfl, ?_, hd, h.1.2.1, h.2.2.2 hd⟩
  simp [initial]

/-! ## Mouse normalization -/

/-- C9, as stated, fails: in a 1000 by 800 window with a canvas 1200 wide whose
bounding rectangle starts 200 pixels left of the viewport, the pointer at
`(900, 400)` is inside the rectangle but is stored with `x = 6/5 > 1`, and the
centre of the viewport `(500, 400)` is stored as `(2/5, 0)`, not `(0, 0)`. -/
theorem mouse_normalization_counterexample :
    (0 : ℚ) < (⟨1000, 800⟩ : Window).innerWidth ∧
    (0 : ℚ) < (⟨1000, 800⟩ : Window).innerHeight ∧
    insideRect ⟨-200, 0, 1200, 800⟩ ⟨900, 400⟩ ∧
    (onDocumentMouseMove initial ⟨1000, 800⟩ ⟨-200, 0, 1200, 800⟩ ⟨900, 400⟩).targetMousePos
      = ⟨6 / 5, 0⟩ ∧
    ¬ ((onDocumentMouseMove initial ⟨1000, 800⟩ ⟨-200, 0, 1200, 800⟩
        ⟨900, 400⟩).targetMousePos.x ≤ 1) ∧
    insideRect ⟨-200, 0, 1200, 800⟩ (viewportCentre ⟨1000, 800⟩) ∧
    (onDocumentMouseMove initial ⟨1000, 800⟩ ⟨-200, 0, 1200, 800⟩
      (viewportCentre ⟨1000, 800⟩)).targetMousePos = ⟨2 / 5, 0⟩ := by
  refine ⟨by norm_num, by norm_num, ?_, ?_, ?_, ?_, ?_⟩
  · norm_num [insideRect]
  · norm_num [onDocumentMouseMove]
  · norm_num [onDocumentMouseMove]
  · norm_num [insideRect, viewportCentre]
  · norm_num [onDocumentMouseMove, viewportCentre]

/-- C9, amended: for positive `innerWidth` and `innerHeight`, a canvas whose
bounding rectangle is no wider and no taller than the window, and a pointer
event inside that rectangle, both components of the stored `targetMousePos` lie
in `[-1, 1]`; when the rectangle starts at the viewport origin the centre of the
viewport is stored as `(0, 0)`; a larger `clientY` gives a smaller stored y; and
the stored value is the same whatever the previous state was, while no other
field changes. -/
theorem mouse_normalization (s : Stage) (window : Window) (rect : DOMRect)
    (event : MouseEvent)
    (hw : 0 < window.innerWidth) (hh : 0 < window.innerHeight)
    (hrw : rect.width ≤ window.innerWidth) (hrh : rect.height ≤ window.innerHeight)
    (hin : insideRect rect event) :
    ((-1 ≤ (onDocumentMouseMove s window rect event).targetMousePos.x ∧
        (onDocumentMouseMove s window rect event).targetMousePos.x ≤ 1) ∧
      (-1 ≤ (onDocumentMouseMove s window rect event).targetMousePos.y ∧
        (onDocumentMouseMove s window rect event).targetMousePos.y ≤ 1)) ∧
    (rect.left = 0 → rect.top = 0 →
      (onDocumentMouseMove s window rect (viewportCentre window)).targetMousePos = ⟨0, 0⟩) ∧
    (∀ e2 : MouseEvent, event.clientY < e2.clientY →
      (onDocumentMouseMove s window rect e2).targetMousePos.y
        < (onDocumentMouseMove s window rect event).targetMousePos.y) ∧
    (∀ s2 : Stage,
      (onDocumentMouseMove s2 window rect event).targetMousePos
        = (onDocumentMouseMove s window rect event).targetMousePos) ∧
    onDocumentMouseMove s window rect event
      = { s with targetMousePos := (onDocumentMouseMove s window rect event).targetMousePos } := by
  obtain ⟨⟨hx1, hx2⟩, hy1, hy2⟩ := hin
  have hx0 : 0 ≤ (event.clientX - rect.left) / window.innerWidth :=
    div_nonneg (by linarith) hw.le
  have hx1' : (event.clientX - rect.left) / window.innerWidth ≤ 1 := by
    rw [div_le_one hw]
    linarith
  have hy0 : 0 ≤ (event.clientY - rect.top) / window.innerHeight :=
    div_nonneg (by linarith) hh.le
  have hy1' : (event.clientY - rect.top) / window.innerHeight ≤ 1 := by
    rw [div_le_one hh]
    linarith
  refine ⟨⟨⟨?_, ?_⟩, ?_, ?_⟩, ?_, ?_, ?_, rfl⟩
  · simp only [onDocumentMouseMove]; linarith
  · simp only [onDocumentMouseMove]; linarith
  · simp only [onDocumentMouseMove]; linarith
  · simp only [onDocumentMouseMove]; linarith
  · intro hl ht
    simp only [onDocumentMouseMove, viewportCentre, hl, ht, sub_zero, Vector2.mk.injEq]
    constructor
    · field_simp
      ring
    · field_simp
      ring
  · intro e2 hlt
    simp only [onDocumentMouseMove]
    have : (event.clientY - rect.top) / window.innerHeight
        < (e2.clientY - rect.top) / window.innerHeight :=
      div_lt_div_of_pos_right (by linarith) hh
    linarith
  · intro s2
    rfl

/-- Witness for C9 amended: an 800 by 600 window filled by the canvas and the
pointer at `(600, 450)`, stored as `(1/2, -1/2)`. -/
theorem mouse_normalization_witness :
    insideRect ⟨0, 0, 800, 600⟩ ⟨600, 450⟩ ∧
    (onDocumentMouseMove initial ⟨800, 600⟩ ⟨0, 0, 800, 600⟩ ⟨600, 450⟩).targetMousePos
      = ⟨1 / 2, -1 / 2⟩ ∧
    ((-1 ≤ (onDocumentMouseMove initial ⟨800, 600⟩ ⟨0, 0, 800, 600⟩
          ⟨600, 450⟩).targetMousePos.x ∧
        (onDocumentMouseMove initial ⟨800, 600⟩ ⟨0, 0, 800, 600⟩
          ⟨600, 450⟩).targetMousePos.x ≤ 1) ∧
      (-1 ≤ (onDocumentMouseMove initial ⟨800, 600⟩ ⟨0, 0, 800, 600⟩
          ⟨600, 450⟩).targetMousePos.y ∧
        (onDocumentMouseMove initial ⟨800, 600⟩ ⟨0, 0, 800, 600⟩
          ⟨600, 450⟩).targetMousePos.y ≤ 1)) ∧
    (onDocumentMouseMove initial ⟨800, 600⟩ ⟨0, 0, 800, 600⟩
      (viewportCentre ⟨800, 600⟩)).targetMousePos = ⟨0, 0⟩ := by
  have hin : insideRect ⟨0, 0, 800, 600⟩ ⟨600, 450⟩ := by norm_num [insideRect]
  have h := mouse_normalization initial ⟨800, 600⟩ ⟨0, 0, 800, 600⟩ ⟨600, 450⟩
    (by norm_num) (by norm_num) (by norm_num) (by norm_num) hin
  refine ⟨hin, ?_, h.1, h.2.1 rfl rfl⟩
  norm_num [onDocumentMouseMove]

/-! ## Debounce guard -/

/-- Effect of one tick on the timer queue and the guard, in terms of the
buckets compared during that tick. -/
theorem update_debounce (s : Stage) :
    ((bucket (update s).cameraPos.z ≠ bucket (update s).targetCameraPos.z ∧
        truthy s.camMoveBlocked = false) →
      (update s).timers = s.timers ++ [100] ∧ (update s).camMoveBlocked = some true) ∧
    (¬ (bucket (update s).cameraPos.z ≠ bucket (update s).targetCameraPos.z ∧
        truthy s.camMoveBlocked = false) →
      (update s).timers = s.timers ∧ (update s).camMoveBlocked = s.camMoveBlocked) := by
  have hz : ∀ t : Stage, (driftTarget t).z = t.targetCameraPos.z := fun _ => rfl
  rw [update_eq]
  simp only [cft_cameraPos, cft_targetCameraPos, hz, cft_timers, cft_camMoveBlocked]
  have he := emits_iff (updateMouse (dispatchEvent s Signal.preUpdate))
  have e1 : (updateMouse (dispatchEvent s Signal.preUpdate)).camMoveBlocked
      = s.camMoveBlocked := rfl
  have e2 : (updateMouse (dispatchEvent s Signal.preUpdate)).timers
      = s.timers := rfl
  have e3 : (updateMouse
      (dispatchEvent s Signal.preUpdate)).targetCameraPos
      = s.targetCameraPos := rfl
  rw [e1] at he
  rw [e1, e2, e3]
  rw [e3] at he
  rw [← he]
  constructor
  · intro h
    simp [h]
  · intro h
    simp [h]

theorem update_guardInv (s : Stage) (h : GuardInv s) : GuardInv (update s) := by
  obtain ⟨h1, h2⟩ := update_debounce s
  by_cases hc : bucket (update s).cameraPos.z ≠ bucket (update s).targetCameraPos.z ∧
      truthy s.camMoveBlocked = false
  · obtain ⟨ht, hb⟩ := h1 hc
    have hlen : s.timers.length = 0 := by
      have hne : ¬ s.timers.length = 1 := by
        intro h1len
        have := h.2.mpr h1len
        rw [hc.2] at this
        exact Bool.false_ne_true this
      have := h.1
      omega
    unfold GuardInv
    rw [ht, hb]
    simp [truthy, hlen]
  · obtain ⟨ht, hb⟩ := h2 hc
    unfold GuardInv
    rw [ht, hb]
    exact h

theorem step_guardInv {s s1 : Stage} {a : Action} (hstep : step s a = some s1)
    (h : GuardInv s) : GuardInv s1 := by
  cases a with
  | mouseMove w r e =>
    simp only [step, Option.some.injEq] at hstep
    subst hstep
    exact h
  | tick =>
    simp only [step, Option.some.injEq] at hstep
    subst hstep
    exact update_guardInv s h
  | timeout =>
    simp only [step, fireTimer] at hstep
    split at hstep
    · simp at hstep
    · rename_i t rest heq
      simp only [Option.some.injEq] at hstep
      subst hstep
      have hlen := h.1
      rw [heq] at hlen
      have hrest : rest = [] := by
        cases rest with
        | nil => rfl
        | cons b bs => simp at hlen
      simp [GuardInv, timerCallback, truthy, hrest, dispatchEvent]

/-- Only a firing timer dispatches `cameraMove`, and each firing dispatches it once. -/
theorem step_count {s s1 : Stage} {a : Action} (hstep : step s a = some s1) :
    s1.dispatched.count Signal.cameraMove
      = s.dispatched.count Signal.cameraMove + (if a = Action.timeout then 1 else 0) := by
  cases a with
  | mouseMove w r e =>
    simp only [step, Option.some.injEq] at hstep
    subst hstep
    simp [onDocumentMouseMove]
  | tick =>
    simp only [step, Option.some.injEq] at hstep
    subst hstep
    simp [update_dispatched]
  | timeout =>
    simp only [step, fireTimer] at hstep
    split at hstep
    · simp at hstep
    · simp only [Option.some.injEq] at hstep
      subst hstep
      simp [timerCallback, dispatchEvent]

theorem run_guardInv (acts : List Action) :
    ∀ (s s1 : Stage), run s acts = some s1 → GuardInv s →
      GuardInv s1 ∧
        s1.dispatched.count Signal.cameraMove
          = s.dispatched.count Signal.cameraMove + acts.count Action.timeout := by
  induction acts with
  | nil =>
    intro s s1 h hinv
    simp only [run, Option.some.injEq] at h
    subst h
    exact ⟨hinv, by simp⟩
  | cons a rest ih =>
    intro s s1 h hinv
    simp only [run] at h
    cases hstep : step s a with
    | none => simp [hstep] at h
    | some s2 =>
      simp only [hstep, Option.some_bind] at h
      obtain ⟨r1, r2⟩ := ih s2 s1 h (step_guardInv hstep hinv)
      refine ⟨r1, ?_⟩
      rw [r2, step_count hstep, List.count_cons]
      by_cases ha : a = Action.timeout
      · subst ha
        simp
        omega
      · have ha2 : ¬ (a == Action.timeout) = true := by simpa using ha
        simp [ha, ha2]

theorem guardInv_of_idle (s : Stage) (hguard : truthy s.camMoveBlocked = false)
    (hq : s.timers = []) : GuardInv s := by
  unfold GuardInv
  simp [hguard, hq]

/-- C10: from any state with the guard unset and no timer pending, after any
interleaving of pointer-move handlers, ticks and firings of pending timers, at
most one timer is pending, `camMoveBlocked` is set exactly when one timer is
pending, and the number of `cameraMove` events dispatched since the start
equals, hence never exceeds, the number of timer firings. -/
theorem debounce_guard_invariant (s : Stage) (acts : List Action) (s1 : Stage)
    (hguard : truthy s.camMoveBlocked = false) (hq : s.timers = [])
    (hrun : run s acts = some s1) :
    s1.timers.length ≤ 1 ∧
    (truthy s1.camMoveBlocked = true ↔ s1.timers.length = 1) ∧
    s1.dispatched.count Signal.cameraMove
      = s.dispatched.count Signal.cameraMove + acts.count Action.timeout ∧
    s1.dispatched.count Signal.cameraMove
      ≤ s.dispatched.count Signal.cameraMove + acts.count Action.timeout := by
  obtain ⟨⟨h1, h2⟩, h3⟩ := run_guardInv acts s s1 hrun (guardInv_of_idle s hguard hq)
  exact ⟨h1, h2, h3, h3.le⟩

/-- Witness for C10: from `debounceStart` a tick schedules the timer and the
timer then fires; the run is enabled and ends with no timer pending, the guard
cleared and one `cameraMove` dispatched for one firing. -/
theorem debounce_guard_invariant_witness :
    truthy debounceStart.camMoveBlocked = false ∧ debounceStart.timers = [] ∧
    run debounceStart [Action.tick, Action.timeout]
      = some (timerCallback { update debounceStart with timers := [] }) ∧
    (timerCallback { update debounceStart with timers := [] }).timers.length ≤ 1 ∧
    (timerCallback { update debounceStart with timers := [] }).dispatched.count
      Signal.cameraMove ≤ 0 + 1 := by
  have hmis : bucket (update debounceStart).cameraPos.z
      ≠ bucket (update debounceStart).targetCameraPos.z := by
    have h1 : bucket (update debounceStart).cameraPos.z = 3 := by
      simp only [update_eq, cft_cameraPos, bucket]
      rw [Int.ceil_eq_iff]
      norm_num [lerpedCameraPos, driftTarget, Vector3.lerp, updateMouse, debounceStart, initial, dispatchEvent]
    have h2 : bucket (update debounceStart).targetCameraPos.z = 4 := by
      simp only [update_eq, cft_targetCameraPos, bucket]
      rw [Int.ceil_eq_iff]
      norm_num [driftTarget, updateMouse, debounceStart, initial, dispatchEvent]
    rw [h1, h2]
    decide
  have ht := ((update_debounce debounceStart).1 ⟨hmis, rfl⟩).1
  have hrun : run debounceStart [Action.tick, Action.timeout]
      = some (timerCallback { update debounceStart with timers := [] }) := by
    simp only [run, step, Option.some_bind, fireTimer]
    rw [ht]
    rfl
  have h := debounce_guard_invariant debounceStart [Action.tick, Action.timeout] _ rfl rfl hrun
  exact ⟨rfl, rfl, hrun, h.1, h.2.2.2⟩

/-- Closed form of the camera depth after `n` ticks: the target depth is
untouched and the offset of `cameraPos.z` from it shrinks by `0.92` per tick. -/
theorem iterate_update_z (s : Stage) (hspeed : s.cameraLerpSpeed = 0.08) (n : ℕ) :
    (update^[n] s).targetCameraPos.z = s.targetCameraPos.z ∧
      (update^[n] s).cameraPos.z - s.targetCameraPos.z
        = 0.92 ^ n * (s.cameraPos.z - s.targetCameraPos.z) := by
  induction n with
  | zero => simp
  | succ k ih =>
    obtain ⟨hsp, _, _, _⟩ := iterate_update_config s k
    rw [Function.iterate_succ_apply']
    have hz : (update (update^[k] s)).targetCameraPos.z = (update^[k] s).targetCameraPos.z := by
      rw [update_eq, cft_targetCameraPos]
      rfl
    have hc : (update (update^[k] s)).cameraPos.z
        = (update^[k] s).cameraPos.z
          + ((update^[k] s).targetCameraPos.z - (update^[k] s).cameraPos.z) * 0.08 := by
      rw [update_eq, cft_cameraPos]
      simp only [lerpedCameraPos, Vector3.lerp, driftTarget, updateMouse, dispatchEvent]
      rw [hsp, hspeed]
    refine ⟨hz.trans ih.1, ?_⟩
    rw [hc, ih.1]
    have h2 := ih.2
    have e : (update^[k] s).cameraPos.z
        = 0.92 ^ k * (s.cameraPos.z - s.targetCameraPos.z) + s.targetCameraPos.z := by
      linarith
    rw [e, pow_succ]
    ring

/-- Values on the two sides of a multiple of 1000 fall in different buckets. -/
theorem bucket_ne_of_le_of_lt {a b : ℚ} (k : ℤ) (h1 : a ≤ 1000 * k) (h2 : 1000 * k < b) :
    bucket a ≠ bucket b := by
  unfold bucket
  have ha : ⌈a / 1000⌉ ≤ k := by
    rw [Int.ceil_le, div_le_iff₀ (by norm_num)]
    linarith
  have hb : k < ⌈b / 1000⌉ := by
    rw [Int.lt_ceil, lt_div_iff₀ (by norm_num)]
    linarith
  omega

/-- C3: starting with `camMoveBlocked` unset and no timer pending, for every
`n ≥ 1` and every run of `n` consecutive ticks in each of which the camera
bucket differs from the target bucket (no timer firing in between), the timer
queue holds exactly one timer after each of the ticks (scheduled by the first
one) and no `cameraMove` has been dispatched; firing that timer dispatches
exactly one `cameraMove`, clears `camMoveBlocked` and leaves no timer pending. -/
theorem debounce_single_fire (s : Stage) (n : ℕ) (hn : 1 ≤ n)
    (hguard : truthy s.camMoveBlocked = false) (hq : s.timers = [])
    (hmis : ∀ i : ℕ, i < n →
      bucket (update^[i + 1] s).cameraPos.z ≠ bucket (update^[i + 1] s).targetCameraPos.z) :
    (∀ i : ℕ, 1 ≤ i → i ≤ n →
      (update^[i] s).timers = [100] ∧ (update^[i] s).camMoveBlocked = some true ∧
        (update^[i] s).dispatched.count Signal.cameraMove
          = s.dispatched.count Signal.cameraMove) ∧
    ∃ s1 : Stage, fireTimer (update^[n] s) = some s1 ∧
      s1.dispatched = (update^[n] s).dispatched ++ [Signal.cameraMove] ∧
      s1.dispatched.count Signal.cameraMove = s.dispatched.count Signal.cameraMove + 1 ∧
      s1.camMoveBlocked = some false ∧ s1.timers = [] ∧ fireTimer s1 = none := by
  have hall : ∀ i : ℕ, 1 ≤ i → i ≤ n →
      (update^[i] s).timers = [100] ∧ (update^[i] s).camMoveBlocked = some true ∧
        (update^[i] s).dispatched.count Signal.cameraMove
          = s.dispatched.count Signal.cameraMove := by
    intro i
    induction i with
    | zero => intro h; omega
    | succ k ih =>
      intro _ hk
      rw [Function.iterate_succ_apply']
      have hcount : ∀ t : Stage, (update t).dispatched.count Signal.cameraMove
          = t.dispatched.count Signal.cameraMove := by
        intro t
        simp [update_dispatched]
      rcases Nat.eq_zero_or_pos k with h0 | hpos
      · subst h0
        have hm := hmis 0 (by omega)
        simp only [zero_add, Function.iterate_one] at hm
        obtain ⟨ht, hb⟩ := (update_debounce s).1 ⟨hm, hguard⟩
        rw [hq] at ht
        exact ⟨by simpa using ht, hb, by simpa using hcount s⟩
      · obtain ⟨ht, hb, hc⟩ := ih hpos (by omega)
        have hno : ¬ (bucket (update (update^[k] s)).cameraPos.z
            ≠ bucket (update (update^[k] s)).targetCameraPos.z ∧
            truthy (update^[k] s).camMoveBlocked = false) := by
          rw [hb]
          simp [truthy]
        obtain ⟨ht2, hb2⟩ := (update_debounce (update^[k] s)).2 hno
        exact ⟨ht2.trans ht, hb2.trans hb, (hcount _).trans hc⟩
  refine ⟨hall, ?_⟩
  obtain ⟨ht, _, hc⟩ := hall n hn le_rfl
  refine ⟨timerCallback { update^[n] s with timers := [] }, ?_, rfl, ?_, rfl, rfl, rfl⟩
  · simp only [fireTimer]
    rw [ht]
  · simp [timerCallback, hc, dispatchEvent]

/-- Witness for C3 with `n = 5`: from `debounceStart` the camera depth stays at
or below 3000 (bucket 3) for five ticks while the target depth is 3500
(bucket 4); one timer is pending after the fifth tick. -/
theorem debounce_single_fire_witness :
    truthy debounceStart.camMoveBlocked = false ∧ debounceStart.timers = [] ∧
    (∀ i : ℕ, i < 5 →
      bucket (update^[i + 1] debounceStart).cameraPos.z
        ≠ bucket (update^[i + 1] debounceStart).targetCameraPos.z) ∧
    (update^[5] debounceStart).timers = [100] ∧
    ∃ s1 : Stage, fireTimer (update^[5] debounceStart) = some s1 ∧
      s1.dispatched = (update^[5] debounceStart).dispatched ++ [Signal.cameraMove] ∧
      s1.dispatched.count Signal.cameraMove = 0 + 1 ∧
      s1.camMoveBlocked = some false ∧ s1.timers = [] ∧ fireTimer s1 = none := by
  have hmis : ∀ i : ℕ, i < 5 →
      bucket (update^[i + 1] debounceStart).cameraPos.z
        ≠ bucket (update^[i + 1] debounceStart).targetCameraPos.z := by
    intro i hi
    obtain ⟨hz, hc⟩ := iterate_update_z debounceStart rfl (i + 1)
    have hc2 : (update^[i + 1] debounceStart).cameraPos.z = 3500 - 1000 * 0.92 ^ (i + 1) := by
      have e1 : debounceStart.cameraPos.z = 2500 := rfl
      have e2 : debounceStart.targetCameraPos.z = 3500 := rfl
      rw [e1, e2] at hc
      linarith
    have hz2 : (update^[i + 1] debounceStart).targetCameraPos.z = 3500 := hz
    rw [hc2, hz2]
    apply bucket_ne_of_le_of_lt 3
    · interval_cases i <;> norm_num
    · norm_num
  have h := debounce_single_fire debounceStart 5 (by norm_num) rfl rfl hmis
  exact ⟨rfl, rfl, hmis, (h.1 5 (by norm_num) le_rfl).1, h.2⟩

/-! ## End-to-end scenario -/

theorem scenarioInv_start : ScenarioInv 0 scenarioStart := by
  unfold ScenarioInv scenarioStart
  norm_num [onDocumentMouseMove, initial]

/-- One tick of the scenario: the invariant advances, `targetCameraPos.x`
strictly decreases and stays above `-(n + 1) / 2`, and no clamp is applied. -/
theorem scenarioInv_step (n : ℕ) (hn : n < 50) (s : Stage) (h : ScenarioInv n s) :
    ScenarioInv (n + 1) (update s) ∧
      (update s).targetCameraPos.x < s.targetCameraPos.x ∧
      -(((n : ℚ) + 1) / 2) < (update s).targetCameraPos.x ∧
      clampAppliedX (updateMouse (dispatchEvent s Signal.preUpdate))
        = false := by
  obtain ⟨hsp, hmax, hmin, htm, ⟨hmx0, hmx1⟩, ⟨hmy0, hmy1⟩, ⟨htx0, htx1⟩, ⟨hty0, hty1⟩,
    hcz, htz, htimers, hblocked, hcount⟩ := h
  have hn' : (n : ℚ) < 50 := by exact_mod_cast hn
  have hmp : (update s).mousePos
      = ⟨s.mousePos.x + (1 / 2 - s.mousePos.x) * 0.08,
          s.mousePos.y + (-1 / 2 - s.mousePos.y) * 0.08⟩ := by
    rw [update_mousePos]
    simp only [updateMouse, Vector2.lerp, hsp, htm, dispatchEvent]
  have hmx : (update s).mousePos.x = s.mousePos.x + (1 / 2 - s.mousePos.x) * 0.08 := by
    rw [hmp]
  have hmy : (update s).mousePos.y = s.mousePos.y + (-1 / 2 - s.mousePos.y) * 0.08 := by
    rw [hmp]
  have hx1 : ¬ (s.targetCameraPos.x - (s.mousePos.x + (1 / 2 - s.mousePos.x) * 0.08) > 300) := by
    norm_num
    linarith
  have hx2 : ¬ (s.targetCameraPos.x - (s.mousePos.x + (1 / 2 - s.mousePos.x) * 0.08) < -300) := by
    norm_num
    linarith
  have hy1 : ¬ (s.targetCameraPos.y - (s.mousePos.y + (-1 / 2 - s.mousePos.y) * 0.08) > 300) := by
    norm_num
    linarith
  have hy2 : ¬ (s.targetCameraPos.y - (s.mousePos.y + (-1 / 2 - s.mousePos.y) * 0.08) < -300) := by
    norm_num
    linarith
  have htp : (update s).targetCameraPos
      = ⟨s.targetCameraPos.x - (s.mousePos.x + (1 / 2 - s.mousePos.x) * 0.08),
          s.targetCameraPos.y - (s.mousePos.y + (-1 / 2 - s.mousePos.y) * 0.08), 2500⟩ := by
    rw [update_eq, cft_targetCameraPos]
    simp only [driftTarget, updateMouse, Vector2.lerp, hsp, htm, hmax, hmin, htz,
      if_neg hx1, if_neg hx2, if_neg hy1, if_neg hy2, dispatchEvent]
  have htpx : (update s).targetCameraPos.x
      = s.targetCameraPos.x - (s.mousePos.x + (1 / 2 - s.mousePos.x) * 0.08) := by
    rw [htp]
  have htpy : (update s).targetCameraPos.y
      = s.targetCameraPos.y - (s.mousePos.y + (-1 / 2 - s.mousePos.y) * 0.08) := by
    rw [htp]
  have htpz : (update s).targetCameraPos.z = 2500 := by
    rw [htp]
  have hcpz : (update s).cameraPos.z = 2500 := by
    rw [update_eq, cft_cameraPos]
    simp only [lerpedCameraPos, Vector3.lerp, driftTarget, updateMouse, hcz, htz, dispatchEvent]
    norm_num
  have hno : ¬ (bucket (update s).cameraPos.z ≠ bucket (update s).targetCameraPos.z ∧
      truthy s.camMoveBlocked = false) := by
    rw [hcpz, htpz]
    simp
  obtain ⟨ht2, hb2⟩ := (update_debounce s).2 hno
  have hclamp : clampAppliedX
      (updateMouse (dispatchEvent s Signal.preUpdate)) = false := by
    simp only [clampAppliedX, updateMouse, Vector2.lerp, hsp, htm, hmax, hmin,
      if_neg hx1, decide_eq_false hx1, decide_eq_false hx2, Bool.or_self, dispatchEvent]
  refine ⟨⟨?_, ?_, ?_, ?_, ?_, ?_, ?_, ?_, hcpz, htpz, ?_, ?_, ?_⟩, ?_, ?_, hclamp⟩
  · simpa using hsp
  · simpa using hmax
  · simpa using hmin
  · simpa using htm
  · rw [hmx]
    constructor <;> norm_num <;> linarith
  · rw [hmy]
    constructor <;> norm_num <;> linarith
  · rw [htpx]
    push_cast
    constructor <;> norm_num <;> linarith
  · rw [htpy]
    push_cast
    constructor <;> norm_num <;> linarith
  · rw [ht2, htimers]
  · rw [hb2, hblocked]
  · rw [update_dispatched]
    simp [hcount]
  · rw [htpx]
    norm_num
    linarith
  · rw [htpx]
    norm_num
    linarith

theorem scenarioInv_iterate (n : ℕ) (hn : n ≤ 50) :
    ScenarioInv n (update^[n] scenarioStart) := by
  induction n with
  | zero => exact scenarioInv_start
  | succ k ih =>
    rw [Function.iterate_succ_apply']
    exact (scenarioInv_step k (by omega) _ (ih (by omega))).1

/-- C8: from the initial state with `targetMousePos` held at `(0.5, -0.5)`, in
each of the first 50 ticks `targetCameraPos.x` strictly decreases, stays above
`-0.5 * 50 = -25` (so above the clamp value `-299`, and no clamp is applied),
`cameraPos.z` and `targetCameraPos.z` stay 2500, no timer is scheduled,
`camMoveBlocked` stays unset and no `cameraMove` is dispatched. -/
theorem end_to_end_scenario (n : ℕ) (hn : n < 50) :
    scenarioStart.targetMousePos = ⟨1 / 2, -1 / 2⟩ ∧
    (update^[n + 1] scenarioStart).targetMousePos = ⟨1 / 2, -1 / 2⟩ ∧
    (update^[n + 1] scenarioStart).targetCameraPos.x
      < (update^[n] scenarioStart).targetCameraPos.x ∧
    -25 < (update^[n + 1] scenarioStart).targetCameraPos.x ∧
    -299 < (update^[n + 1] scenarioStart).targetCameraPos.x ∧
    clampAppliedX (updateMouse (dispatchEvent (update^[n] scenarioStart) Signal.preUpdate))
      = false ∧
    (update^[n + 1] scenarioStart).cameraPos.z = 2500 ∧
    (update^[n + 1] scenarioStart).targetCameraPos.z = 2500 ∧
    (update^[n + 1] scenarioStart).timers = [] ∧
    (update^[n + 1] scenarioStart).camMoveBlocked = none ∧
    (update^[n + 1] scenarioStart).dispatched.count Signal.cameraMove = 0 := by
  have hinv := scenarioInv_iterate n (by omega)
  obtain ⟨hnext, hdec, hlow, hclamp⟩ := scenarioInv_step n hn _ hinv
  rw [← Function.iterate_succ_apply' update n scenarioStart] at hnext hdec hlow
  obtain ⟨_, _, _, htm, _, _, _, _, hcz, htz, htimers, hblocked, hcount⟩ := hnext
  have hn' : (n : ℚ) + 1 ≤ 50 := by exact_mod_cast hn
  have h25 : -25 < (update^[n + 1] scenarioStart).targetCameraPos.x := by linarith
  refine ⟨scenarioInv_start.2.2.2.1, htm, hdec, h25, by linarith, hclamp, hcz, htz, htimers,
    hblocked, hcount⟩

/-- Witness for C8: the fiftieth tick (`n = 49`). -/
theorem end_to_end_scenario_witness :
    49 < 50 ∧
    (update^[50] scenarioStart).targetCameraPos.x
      < (update^[49] scenarioStart).targetCameraPos.x ∧
    -25 < (update^[50] scenarioStart).targetCameraPos.x ∧
    (update^[50] scenarioStart).cameraPos.z = 2500 ∧
    (update^[50] scenarioStart).timers = [] := by
  have h := end_to_end_scenario 49 (by norm_num)
  exact ⟨by norm_num, h.2.2.1, h.2.2.2.1, h.2.2.2.2.2.2.1, h.2.2.2.2.2.2.2.2.1⟩

end Symphony
